import Mathlib

/-!
Verification development for the `http-process-wrapper` repository.

The Python sources (`src/app/service.py`, `src/app/main.py`) are shallowly
embedded below.  Machine integers are modelled as `Nat`/`Int`; Python
exceptions are modelled with `Except`/`Option`; the wall clock
(`datetime.now(timezone.utc)`) is abstracted as a `Nat` parameter supplied by
the caller; the operating-system child process returned by `open_process` is
abstracted as an `Except`-valued spawn argument (success provides the child
handle, failure models the raised exception).  Dictionaries keyed by strings
(`processes_registry`) are embedded as association lists in insertion order,
which is how CPython dictionaries iterate.
-/

namespace PW

/-- `LogKind` from service.py: the two child output streams. -/
inductive LogKind where
  | stdout
  | stderr
deriving DecidableEq

/-- `LogLine` from service.py: one ring-buffer record.  The timestamp is an
abstract clock value (`datetime` is not re-implemented). -/
structure LogLine where
  kind : LogKind
  timestamp : Nat
  text : String
deriving DecidableEq

/-- Python line-break characters used by `str.splitlines`:
LF, VT, FF, CR, FS, GS, RS, NEL, LINE SEPARATOR, PARAGRAPH SEPARATOR. -/
def isLineBreak (c : Char) : Bool :=
  c.toNat = 10 || c.toNat = 11 || c.toNat = 12 || c.toNat = 13 ||
  c.toNat = 28 || c.toNat = 29 || c.toNat = 30 || c.toNat = 133 ||
  c.toNat = 8232 || c.toNat = 8233

/-- Worker for `str.splitlines(keepends=True)`: `acc` holds the (reversed)
characters of the current piece; a CR immediately followed by LF counts as a
single break kept with the preceding piece. -/
def slk : List Char → List Char → List (List Char)
  | acc, [] => if acc.isEmpty then [] else [acc.reverse]
  | acc, c :: rest =>
    if c.toNat = 13 then
      match rest with
      | d :: rest2 =>
        if d.toNat = 10 then (acc.reverse ++ [c, d]) :: slk [] rest2
        else (acc.reverse ++ [c]) :: slk [] (d :: rest2)
      | [] => (acc.reverse ++ [c]) :: slk [] []
    else if isLineBreak c then (acc.reverse ++ [c]) :: slk [] rest
    else slk (c :: acc) rest

/-- `text.splitlines(keepends=True)` as used at service.py:77. -/
def splitlines_keepends (s : String) : List String :=
  (slk [] s.data).map String.mk

/-- `maxlen` of the `deque` created in `model_post_init` (service.py:55). -/
def LOG_MAXLEN : Nat := 1000

/-- `deque.append` with `maxlen`: the oldest entry is dropped once the length
would exceed the bound. -/
def deque_append (buf : List LogLine) (l : LogLine) : List LogLine :=
  let b := buf ++ [l]
  if LOG_MAXLEN < b.length then b.drop (b.length - LOG_MAXLEN) else b

/-- `max_buffer_size` of the per-subscriber memory object stream
(service.py:106). -/
def QUEUE_CAP : Nat := 1000

/-- One entry of `_subscriber_streams`: the identity of the stream pair, the
undelivered items buffered in the memory object stream, and whether the
stream has been closed. -/
structure Subscriber where
  sid : Nat
  queue : List LogLine
  closed : Bool
deriving DecidableEq

/-- `MemoryObjectSendStream.send_nowait`: raises (returns `none`) when the
stream is closed (`ClosedResourceError`/`BrokenResourceError`) or when the
buffer is full and nobody is waiting to receive (`WouldBlock`). -/
def send_nowait (sub : Subscriber) (l : LogLine) : Option Subscriber :=
  if sub.closed then none
  else if QUEUE_CAP ≤ sub.queue.length then none
  else some { sub with queue := sub.queue ++ [l] }

/-- The `anyio.abc.Process` handle: its `pid` and its `returncode`
(`none` while the child has not exited). -/
structure ProcInfo where
  pid : Nat
  returncode : Option Int
deriving DecidableEq

/-- `ProcessWrapper` from service.py.  `proc` is `_proc`, `tasks` counts the
entries of `_tasks`, `log_buffer` is `_log_buffer`, `subscriber_streams` is
`_subscriber_streams` in insertion order.  `pending_unsubs` records the
subscriber streams for which `create_task(self.unsubscribe_tail_stream(..))`
was scheduled (service.py:85), and `closed_streams` records the streams on
which `aclose` has been called — these two fields are the effect trace of
the otherwise fire-and-forget task creations and closes. -/
structure ProcessWrapper where
  name : String
  command : List String
  proc : Option ProcInfo
  tasks : Nat
  log_buffer : List LogLine
  subscriber_streams : List Subscriber
  pending_unsubs : List Nat
  closed_streams : List Nat
deriving DecidableEq

/-- Computed field `pid` (service.py:44-45). -/
def ProcessWrapper.pid (s : ProcessWrapper) : Option Nat :=
  s.proc.map ProcInfo.pid

/-- Computed field `returncode` (service.py:49-50). -/
def ProcessWrapper.returncode (s : ProcessWrapper) : Option Int :=
  s.proc.bind ProcInfo.returncode

/-- The broadcast loop of `_append_log_line` (service.py:80-85): each
subscriber is tried with `send_nowait`; a raising subscriber is left in the
dict (its removal is only scheduled) and its id is collected. -/
def broadcast (subs : List Subscriber) (l : LogLine) : List Subscriber × List Nat :=
  match subs with
  | [] => ([], [])
  | sub :: rest =>
    let r := broadcast rest l
    match send_nowait sub l with
    | some sub2 => (sub2 :: r.1, r.2)
    | none => (sub :: r.1, sub.sid :: r.2)

/-- The loop body of `_append_log_line` (service.py:78-85) for one piece of
the split chunk: build the record, append it to the ring buffer, broadcast. -/
def append_one (kind : LogKind) (now : Nat) (piece : String) (s : ProcessWrapper) : ProcessWrapper :=
  let line : LogLine := ⟨kind, now, piece⟩
  let bc := broadcast s.subscriber_streams line
  { s with
    log_buffer := deque_append s.log_buffer line
    subscriber_streams := bc.1
    pending_unsubs := s.pending_unsubs ++ bc.2 }

/-- `_append_log_line` (service.py:76-85): split the chunk with
`splitlines(keepends=True)` and run the loop body on every piece.  All pieces
of one chunk share the abstracted clock value `now`. -/
def append_log_line (kind : LogKind) (now : Nat) (text : String) (s : ProcessWrapper) : ProcessWrapper :=
  (splitlines_keepends text).foldl (fun st piece => append_one kind now piece st) s

/-- Python `min` on integers. -/
def pyMin (a b : Int) : Int := if a ≤ b then a else b

/-- The skip test of `tail` (service.py:96-97):
`not include_stderr and line.kind == LogKind.STDERR`. -/
def skip_line (include_stderr : Bool) (l : LogLine) : Bool :=
  !include_stderr && decide (l.kind = LogKind.stderr)

/-- Python list item assignment `out[i] = l`: a negative index is taken from
the end; an index out of range raises `IndexError` (returns `none`). -/
def py_set (out : List (Option LogLine)) (i : Int) (l : LogLine) : Option (List (Option LogLine)) :=
  let j : Int := if i < 0 then i + out.length else i
  if 0 ≤ j ∧ j < (out.length : Int) then some (out.set j.toNat (some l)) else none

/-- The loop of `tail` (service.py:95-101) over `reversed(self._log_buffer)`:
skip filtered lines, store at `output[n-1]`, decrement, break at zero.
`Except.error ()` models the `IndexError` raised by the assignment. -/
def tail_loop (include_stderr : Bool) :
    List LogLine → Int → List (Option LogLine) → Except Unit (List (Option LogLine))
  | [], _, out => .ok out
  | l :: rest, n, out =>
    if skip_line include_stderr l then tail_loop include_stderr rest n out
    else
      match py_set out (n - 1) l with
      | none => .error ()
      | some out2 =>
        if n - 1 = 0 then .ok out2 else tail_loop include_stderr rest (n - 1) out2

/-- `tail` (service.py:91-102): clamp `n` to the buffer length, allocate
`[None] * n`, fill from the newest record backwards.  The returned list may
contain `none` entries exactly as the Python list may contain `None`. -/
def tail (buf : List LogLine) (n : Int) (include_stderr : Bool) :
    Except Unit (List (Option LogLine)) :=
  let m := pyMin n buf.length
  tail_loop include_stderr buf.reverse m (List.replicate m.toNat none)

/-- Decidable equality for `Except`, needed to evaluate concrete runs. -/
instance {ε α : Type} [DecidableEq ε] [DecidableEq α] : DecidableEq (Except ε α) := fun a b =>
  match a, b with
  | .ok x, .ok y =>
    if h : x = y then .isTrue (by rw [h]) else .isFalse (by intro hc; cases hc; exact h rfl)
  | .error x, .error y =>
    if h : x = y then .isTrue (by rw [h]) else .isFalse (by intro hc; cases hc; exact h rfl)
  | .ok _, .error _ => .isFalse (by intro hc; cases hc)
  | .error _, .ok _ => .isFalse (by intro hc; cases hc)

/-- `start` (service.py:58-62): `open_process` is abstracted by the `spawn`
argument.  On spawn failure the exception propagates and neither `_proc` nor
`_tasks` is touched; on success `_proc` is set and the two drain workers are
appended to `_tasks`. -/
def start (spawn : Except Unit ProcInfo) (s : ProcessWrapper) :
    ProcessWrapper × Except Unit Unit :=
  match spawn with
  | .error e => (s, .error e)
  | .ok child => ({ s with proc := some child, tasks := s.tasks + 2 }, .ok ())

/-- `stop` (service.py:121-130): if a child is present and has not exited,
signal it (terminate or kill — only the signal differs, abstracted away) and
wait for exit, which makes `returncode` defined; `exitCode` abstracts the
value the reaped child returns.  Then all tasks are cancelled and `_tasks`
is reset.  `_subscriber_streams`, `_log_buffer`, `closed_streams` and
`pending_unsubs` are not touched. -/
def stop (exitCode : Int) (kill : Bool) (s : ProcessWrapper) : ProcessWrapper :=
  let s2 :=
    match s.proc with
    | some c =>
      if c.returncode = none then
        { s with proc := some { c with returncode := some exitCode } }
      else s
    | none => s
  { s2 with tasks := 0 }

/-- `restart` (service.py:132-137): `stop(kill_existing)`, optionally clear
the ring buffer, then `start()`.  The spawn outcome of the final `start` is
returned alongside the state reached (on spawn failure the stop/clear
mutations persist, as in the Python code). -/
def restart (exitCode : Int) (spawn : Except Unit ProcInfo)
    (kill_existing clear_logs : Bool) (s : ProcessWrapper) :
    ProcessWrapper × Except Unit Unit :=
  let s1 := stop exitCode kill_existing s
  let s2 := if clear_logs then { s1 with log_buffer := [] } else s1
  start spawn s2

/-- `unsubscribe_tail_stream` (service.py:114-119): the receive side is
closed unconditionally (recorded in `closed_streams`); if the stream is
still registered, the send side is closed too and the entry is popped from
`_subscriber_streams`. -/
def unsubscribe_tail_stream (sid : Nat) (s : ProcessWrapper) : ProcessWrapper :=
  { s with
    closed_streams := s.closed_streams ++ [sid]
    subscriber_streams := s.subscriber_streams.filter fun sub => !(decide (sub.sid = sid)) }

/-- HTTP-visible error outcomes of the main.py handlers.  `validation` is
the 422 class FastAPI produces for malformed parameters; `serverError` is an
unhandled exception escaping a handler (HTTP 500). -/
inductive ApiError where
  | conflict (detail : String)
  | notFound
  | validation (detail : String)
  | serverError
deriving DecidableEq

/-- `processes_registry` (service.py:16): a string-keyed dict in insertion
order. -/
abbrev Registry := List (String × ProcessWrapper)

/-- Dict lookup `processes_registry.get(name)`. -/
def lookup_proc : Registry → String → Option ProcessWrapper
  | [], _ => none
  | (k, v) :: rest, nm => if k = nm then some v else lookup_proc rest nm

/-- Dict deletion `del processes_registry[name]`. -/
def erase_proc : Registry → String → Registry
  | [], _ => []
  | (k, v) :: rest, nm =>
    if k = nm then erase_proc rest nm else (k, v) :: erase_proc rest nm

/-- Replacing the supervisor stored under a name.  In Python the registry
holds a reference and the supervisor object is mutated in place; in this
functional embedding the mutation is written back explicitly. -/
def set_proc : Registry → String → ProcessWrapper → Registry
  | [], _, _ => []
  | (k, v) :: rest, nm, p =>
    if k = nm then (k, p) :: set_proc rest nm p else (k, v) :: set_proc rest nm p

/-- A `ProcessWrapper` as pydantic constructs it from a request body
`{name, command}`: `model_post_init` (service.py:52-56) leaves `_proc`
unset, no tasks, an empty ring buffer and no subscribers. -/
def mk_wrapper (nm : String) (cmd : List String) : ProcessWrapper :=
  { name := nm, command := cmd, proc := none, tasks := 0, log_buffer := [],
    subscriber_streams := [], pending_unsubs := [], closed_streams := [] }

/-- Detail string of the duplicate-name conflict (main.py:73). -/
def detailNameExists : String := "Process with this name already exists"

/-- Detail string of the already-started conflict (main.py:92). -/
def detailAlreadyStarted : String := "Process has already started"

/-- Detail string of the delete-while-running conflict (main.py:175). -/
def detailStillRunning : String := "Process is still running"

/-- `POST /procs` (main.py:70-77): reject a duplicate name, insert the fresh
wrapper into the registry, then — if `start` — spawn.  A spawn failure
escapes the handler after the registry insertion already happened. -/
def create_process (reg : Registry) (nm : String) (cmd : List String)
    (startFlag : Bool) (spawn : Except Unit ProcInfo) :
    Registry × Except ApiError ProcessWrapper :=
  if (lookup_proc reg nm).isSome then
    (reg, .error (.conflict detailNameExists))
  else
    let p := mk_wrapper nm cmd
    if startFlag then
      match start spawn p with
      | (_, .error _) => (reg ++ [(nm, p)], .error .serverError)
      | (p2, .ok _) => (reg ++ [(nm, p2)], .ok p2)
    else (reg ++ [(nm, p)], .ok p)

/-- `POST /procs/{name}/start` (main.py:87-94): 404 for an unknown name,
400 when `pid is not None`, otherwise run `start`. -/
def start_process (reg : Registry) (nm : String) (spawn : Except Unit ProcInfo) :
    Registry × Except ApiError ProcessWrapper :=
  match lookup_proc reg nm with
  | none => (reg, .error .notFound)
  | some p =>
    if p.pid ≠ none then (reg, .error (.conflict detailAlreadyStarted))
    else
      match start spawn p with
      | (_, .error _) => (reg, .error .serverError)
      | (p2, .ok _) => (set_proc reg nm p2, .ok p2)

/-- `GET /procs/{name}/tail` (main.py:110-116): 404 for an unknown name,
otherwise `proc.tail(n, include_stderr)`; an `IndexError` raised inside
`tail` escapes the handler as a server error.  The declared `n: int` query
parameter accepts every integer — no sign check exists. -/
def tail_process_output (reg : Registry) (nm : String) (n : Int)
    (include_stderr : Bool) : Except ApiError (List (Option LogLine)) :=
  match lookup_proc reg nm with
  | none => .error .notFound
  | some p =>
    match tail p.log_buffer n include_stderr with
    | .error _ => .error .serverError
    | .ok out => .ok out

/-- `DELETE /procs/{name}` (main.py:166-177): 404 for an unknown name, 400
while `returncode is None`, otherwise remove the entry (HTTP 204). -/
def delete_process (reg : Registry) (nm : String) : Registry × Except ApiError Unit :=
  match lookup_proc reg nm with
  | none => (reg, .error .notFound)
  | some p =>
    if p.returncode = none then (reg, .error (.conflict detailStillRunning))
    else (erase_proc reg nm, .ok ())

/-- Trace model of the replay loop of `tail_stream` (service.py:104-112)
under cooperative scheduling.  After the snapshot `tail(n)` and the
registration of the new stream (no suspension point separates them), each
iteration of `for line in queued_lines: await send_stream.send(line)` starts
with a scheduler checkpoint at which the drain workers may run
`_append_log_line`, whose `send_nowait` enqueues the freshly appended record
into the already-registered stream at that moment.  `gaps` lists, for each
replay record, the live records enqueued during the checkpoint that precedes
its send; the result is the order in which records enter the subscriber
queue during the replay phase. -/
def shuffle_replay : List LogLine → List (List LogLine) → List LogLine
  | rs, [] => rs
  | rs, g :: gs =>
    match rs with
    | [] => g ++ shuffle_replay [] gs
    | r :: rs2 => g ++ r :: shuffle_replay rs2 gs

/-- Whole delivery sequence of one subscriber: the replay phase interleaved
with the live records that arrive during it, followed by the live records
appended after the replay loop finished. -/
def delivered (replay : List LogLine) (gaps : List (List LogLine))
    (afterL : List LogLine) : List LogLine :=
  shuffle_replay replay gaps ++ afterL

/-- Concrete records and states used by the closed counterexample and
witness theorems below. -/
def recErr : LogLine := ⟨LogKind.stderr, 0, "e\n"⟩

def recOut : LogLine := ⟨LogKind.stdout, 0, "x\n"⟩

def rec1 : LogLine := ⟨LogKind.stdout, 1, "one\n"⟩

def rec2 : LogLine := ⟨LogKind.stdout, 2, "two\n"⟩

def recLive : LogLine := ⟨LogKind.stdout, 3, "live\n"⟩

def sPartial : String := "Partial "

def sRest : String := "rest\n"

def sMerged : String := "Partial rest\n"

def pName : String := "p"

def cmdEcho : List String := ["echo"]

/-- A freshly created supervisor (never started). -/
def exWrapper : ProcessWrapper := mk_wrapper pName cmdEcho

/-- A supervisor whose child has exited with code 0. -/
def wExited : ProcessWrapper := { exWrapper with proc := some ⟨42, some 0⟩ }

/-- A supervisor with one open live subscriber and no buffered output. -/
def exSub : Subscriber := ⟨0, [], false⟩

def wSub : ProcessWrapper := { exWrapper with subscriber_streams := [exSub] }

/-- Registries used by the closed theorems. -/
def regFresh : Registry := [(pName, exWrapper)]

def wOut : ProcessWrapper := { exWrapper with log_buffer := [recOut] }

def regOut : Registry := [(pName, wOut)]

def regExited : Registry := [(pName, wExited)]

/-- A child handle handed to successful spawns in witnesses. -/
def freshChild : ProcInfo := ⟨99, none⟩

/-! ## Helper lemmas -/

theorem deque_append_of_lt {buf : List LogLine} (l : LogLine)
    (h : buf.length < LOG_MAXLEN) : deque_append buf l = buf ++ [l] := by
  unfold deque_append
  rw [if_neg]
  simp only [List.length_append, List.length_cons, List.length_nil]
  omega

theorem mem_deque_append_self (buf : List LogLine) (l : LogLine) :
    l ∈ deque_append buf l := by
  simp only [deque_append]
  split
  · next h =>
    rw [List.drop_append_of_le_length]
    · exact List.mem_append_right _ (List.mem_singleton.mpr rfl)
    · simp only [List.length_append, List.length_cons, List.length_nil] at h ⊢
      unfold LOG_MAXLEN at h ⊢
      omega
  · exact List.mem_append_right _ (List.mem_singleton.mpr rfl)

theorem append_one_log_buffer (kind : LogKind) (now : Nat) (piece : String)
    (s : ProcessWrapper) :
    (append_one kind now piece s).log_buffer
      = deque_append s.log_buffer ⟨kind, now, piece⟩ := rfl

theorem broadcast_fst (subs : List Subscriber) (l : LogLine) :
    (broadcast subs l).1 = subs.map fun sub => (send_nowait sub l).getD sub := by
  induction subs with
  | nil => rfl
  | cons sub rest ih =>
    cases h : send_nowait sub l <;> simp [broadcast, h, ih]

theorem broadcast_snd (subs : List Subscriber) (l : LogLine) :
    (broadcast subs l).2
      = (subs.filter fun sub => (send_nowait sub l).isNone).map Subscriber.sid := by
  induction subs with
  | nil => rfl
  | cons sub rest ih =>
    cases h : send_nowait sub l <;> simp [broadcast, h, ih, List.filter]

theorem py_set_nil (i : Int) (l : LogLine) : py_set [] i l = none := by
  simp only [py_set, List.length_nil, Nat.cast_zero, Int.add_zero, ite_self]
  split
  · next h => obtain ⟨h1, h2⟩ := h; omega
  · rfl

theorem tail_loop_nil_out (inc : Bool) (lst : List LogLine) (n : Int) :
    tail_loop inc lst n []
      = if lst.any (fun l => !skip_line inc l) then .error () else .ok [] := by
  induction lst generalizing n with
  | nil => simp [tail_loop]
  | cons l rest ih =>
    by_cases hs : skip_line inc l <;>
      simp [tail_loop, hs, py_set_nil, List.any_cons, ih]

theorem tail_neg (buf : List LogLine) (n : Int) (inc : Bool) (h : n < 0) :
    tail buf n inc
      = if buf.any (fun l => !skip_line inc l) then .error () else .ok [] := by
  have hm : pyMin n buf.length = n := by
    unfold pyMin
    rw [if_pos (le_trans (le_of_lt h) (Int.natCast_nonneg _))]
  have ht : n.toNat = 0 := Int.toNat_of_nonpos (le_of_lt h)
  simp only [tail, hm, ht, List.replicate, tail_loop_nil_out, List.any_reverse]

theorem tail_process_output_some {reg : Registry} {nm : String} {p : ProcessWrapper}
    (hl : lookup_proc reg nm = some p) (n : Int) (inc : Bool) :
    tail_process_output reg nm n inc =
      match tail p.log_buffer n inc with
      | .error _ => .error .serverError
      | .ok out => .ok out := by
  unfold tail_process_output
  rw [hl]

theorem start_process_some {reg : Registry} {nm : String} {p : ProcessWrapper}
    (hl : lookup_proc reg nm = some p) (spawn : Except Unit ProcInfo) :
    start_process reg nm spawn =
      if p.pid ≠ none then (reg, .error (.conflict detailAlreadyStarted))
      else
        match start spawn p with
        | (_, .error _) => (reg, .error .serverError)
        | (p2, .ok _) => (set_proc reg nm p2, .ok p2) := by
  unfold start_process
  rw [hl]

theorem delete_process_some {reg : Registry} {nm : String} {p : ProcessWrapper}
    (hl : lookup_proc reg nm = some p) :
    delete_process reg nm =
      if p.returncode = none then (reg, .error (.conflict detailStillRunning))
      else (erase_proc reg nm, .ok ()) := by
  unfold delete_process
  rw [hl]

theorem lookup_erase_self (reg : Registry) (nm : String) :
    lookup_proc (erase_proc reg nm) nm = none := by
  induction reg with
  | nil => rfl
  | cons kv rest ih =>
    obtain ⟨k, v⟩ := kv
    by_cases hk : k = nm <;> simp [erase_proc, lookup_proc, hk, ih]

theorem lookup_erase_ne (reg : Registry) (nm m : String) (h : m ≠ nm) :
    lookup_proc (erase_proc reg nm) m = lookup_proc reg m := by
  induction reg with
  | nil => rfl
  | cons kv rest ih =>
    obtain ⟨k, v⟩ := kv
    by_cases hk : k = nm
    · subst hk
      have hnm : k ≠ m := fun hc => h hc.symm
      simp [erase_proc, lookup_proc, hnm, ih]
    · by_cases hm : k = m
      · subst hm
        simp [erase_proc, lookup_proc, hk]
      · simp [erase_proc, lookup_proc, hk, hm, ih]

theorem shuffle_replay_sublist_left :
    ∀ (gs : List (List LogLine)) (rs : List LogLine),
      List.Sublist rs (shuffle_replay rs gs) := by
  intro gs
  induction gs with
  | nil => intro rs; exact List.Sublist.refl rs
  | cons g gs ih =>
    intro rs
    cases rs with
    | nil => exact List.nil_sublist _
    | cons r rs =>
      show List.Sublist (r :: rs) (g ++ r :: shuffle_replay rs gs)
      exact (List.Sublist.cons₂ r (ih rs)).trans (List.sublist_append_right g _)

theorem shuffle_replay_sublist_right :
    ∀ (gs : List (List LogLine)) (rs : List LogLine),
      List.Sublist gs.flatten (shuffle_replay rs gs) := by
  intro gs
  induction gs with
  | nil => intro rs; exact List.nil_sublist _
  | cons g gs ih =>
    intro rs
    cases rs with
    | nil =>
      show List.Sublist (g ++ gs.flatten) (g ++ shuffle_replay [] gs)
      exact (ih []).append_left g
    | cons r rs =>
      show List.Sublist (g ++ gs.flatten) (g ++ r :: shuffle_replay rs gs)
      exact (List.Sublist.cons r (ih rs)).append_left g

theorem shuffle_replay_perm :
    ∀ (gs : List (List LogLine)) (rs : List LogLine),
      List.Perm (shuffle_replay rs gs) (rs ++ gs.flatten) := by
  intro gs
  induction gs with
  | nil => intro rs; simp [shuffle_replay]
  | cons g gs ih =>
    intro rs
    cases rs with
    | nil =>
      show List.Perm (g ++ shuffle_replay [] gs) ([] ++ (g :: gs).flatten)
      simpa using List.Perm.append_left g (ih [])
    | cons r rs =>
      show List.Perm (g ++ r :: shuffle_replay rs gs) (r :: (rs ++ (g ++ gs.flatten)))
      have h1 : List.Perm (g ++ r :: shuffle_replay rs gs) (g ++ r :: (rs ++ gs.flatten)) :=
        List.Perm.append_left g ((ih rs).cons r)
      have h2 : List.Perm (g ++ r :: (rs ++ gs.flatten)) (r :: (g ++ (rs ++ gs.flatten))) :=
        List.perm_middle
      have h3 : List.Perm (g ++ (rs ++ gs.flatten)) (rs ++ (g ++ gs.flatten)) := by
        rw [← List.append_assoc, ← List.append_assoc]
        exact List.Perm.append_right _ List.perm_append_comm
      exact (h1.trans h2).trans (h3.cons r)

theorem shuffle_replay_all_nil :
    ∀ (gs : List (List LogLine)) (rs : List LogLine),
      (∀ g ∈ gs, g = []) → shuffle_replay rs gs = rs := by
  intro gs
  induction gs with
  | nil => intro rs _; rfl
  | cons g gs ih =>
    intro rs h
    have hg : g = [] := h g (List.mem_cons_self g gs)
    have hrest : ∀ x ∈ gs, x = [] := fun x hx => h x (List.mem_cons_of_mem g hx)
    cases rs with
    | nil =>
      show g ++ shuffle_replay [] gs = []
      rw [hg, ih [] hrest]; rfl
    | cons r rs =>
      show g ++ r :: shuffle_replay rs gs = r :: rs
      rw [hg, ih rs hrest]; rfl

/-! ## Claim theorems -/

/-- C1 (counterexample): after the chunks "Partial " and then "rest\n" arrive
on stdout of a fresh supervisor with nothing in between, the ring buffer
holds TWO records, "Partial " and "rest\n", and no record at all has the
text "Partial rest\n" — `_append_log_line` never merges a piece into the
newest record, refuting the claimed continuation-merge semantics (the repo's
own test `test_write_process_input` asserts the same non-merging buffer). -/
theorem C1_counterexample :
    (append_log_line .stdout 1 sRest (append_log_line .stdout 0 sPartial exWrapper)).log_buffer
        = [⟨.stdout, 0, sPartial⟩, ⟨.stdout, 1, sRest⟩] ∧
    ∀ l ∈ (append_log_line .stdout 1 sRest
        (append_log_line .stdout 0 sPartial exWrapper)).log_buffer,
      l.text ≠ sMerged := by decide

/-- C1 (amended): every piece produced by `splitlines(keepends=True)` is
appended as a fresh record; no merge with the newest record happens.  In
particular the chunks "Partial " then "rest\n" on the same stream add
exactly the two records ⟨kind, t1, "Partial "⟩ and ⟨kind, t2, "rest\n"⟩ to
any buffer that has room for them. -/
theorem C1_amended (s : ProcessWrapper) (kind : LogKind) (t1 t2 : Nat)
    (h : s.log_buffer.length ≤ 998) :
    (append_log_line kind t2 sRest (append_log_line kind t1 sPartial s)).log_buffer
      = s.log_buffer ++ [⟨kind, t1, sPartial⟩, ⟨kind, t2, sRest⟩] := by
  have h1 : splitlines_keepends sPartial = [sPartial] := by decide
  have h2 : splitlines_keepends sRest = [sRest] := by decide
  have hb1 : (append_one kind t1 sPartial s).log_buffer
      = s.log_buffer ++ [⟨kind, t1, sPartial⟩] := by
    rw [append_one_log_buffer]
    exact deque_append_of_lt _ (by unfold LOG_MAXLEN; omega)
  have hb2 : (append_one kind t2 sRest (append_one kind t1 sPartial s)).log_buffer
      = (append_one kind t1 sPartial s).log_buffer ++ [⟨kind, t2, sRest⟩] := by
    rw [append_one_log_buffer]
    refine deque_append_of_lt _ ?_
    rw [hb1]
    simp only [List.length_append, List.length_cons, List.length_nil]
    unfold LOG_MAXLEN
    omega
  unfold append_log_line
  rw [h1, h2]
  simp only [List.foldl_cons, List.foldl_nil]
  rw [hb2, hb1]
  simp

/-- C1 (witness): the amended statement instantiated at a fresh supervisor. -/
theorem C1_witness :
    (append_log_line .stdout 1 sRest (append_log_line .stdout 0 sPartial wOut)).log_buffer
      = wOut.log_buffer ++ [⟨.stdout, 0, sPartial⟩, ⟨.stdout, 1, sRest⟩] :=
  C1_amended wOut .stdout 0 1 (by decide)

/-- C2 (code evaluation at the failing inputs): with one stderr record in
the buffer, `tail(1, include_stderr=false)` returns a one-element list whose
single slot is still `None` — not the empty list the claim's
`min(n, accepted)` bound requires — and with one stdout record in the
buffer, `tail(0)` raises `IndexError` (the assignment `output[-1]` on the
empty output list) instead of returning zero records. -/
theorem C2_code_eval :
    tail [recErr] 1 false = .ok [none] ∧
    tail [recErr] 1 false ≠ .ok [] ∧
    tail [recOut] 0 true = .error () := by decide

/-- C3 (counterexample): a negative `n` is not rejected as a validation
error.  On a registered process with an empty buffer, `tail(-1)` succeeds
and returns the empty list (HTTP 200 with a list); on a process whose
buffer holds a stdout record, the assignment `output[n-1]` raises
`IndexError`, which escapes the handler as a server error — in neither case
is a 422-class validation error produced. -/
theorem C3_counterexample :
    tail_process_output regFresh pName (-1) true = .ok [] ∧
    tail_process_output regOut pName (-1) true = .error .serverError := by decide

/-- C3 (amended): for every registered process and every negative `n`, the
tail endpoint performs no validation: it returns the empty list when no
buffered record passes the stderr filter, and otherwise raises `IndexError`
(surfacing as a server error, not as a 422 validation failure). -/
theorem C3_amended (reg : Registry) (nm : String) (p : ProcessWrapper) (n : Int)
    (inc : Bool) (hl : lookup_proc reg nm = some p) (hn : n < 0) :
    tail_process_output reg nm n inc =
      if p.log_buffer.any (fun l => !skip_line inc l) then .error .serverError
      else .ok [] := by
  rw [tail_process_output_some hl n inc, tail_neg _ _ _ hn]
  by_cases hb : p.log_buffer.any (fun l => !skip_line inc l) <;> simp [hb]

/-- C3 (witness): the amended statement instantiated at a registered process
holding one stdout record, with n = -1. -/
theorem C3_witness :
    tail_process_output regOut pName (-1) true =
      if wOut.log_buffer.any (fun l => !skip_line true l) then .error .serverError
      else .ok [] :=
  C3_amended regOut pName wOut (-1) true (by decide) (by decide)

/-- C4 (counterexample): one cooperative schedule in which a record is
appended during the checkpoint inside the second replay `send`: the
subscriber queue receives replay₁, live, replay₂ — the live record lands
inside the replay, so the delivered sequence is not replay ++ live and the
replay/live boundary is not exact. -/
theorem C4_counterexample :
    delivered [rec1, rec2] [[], [recLive]] [] = [rec1, recLive, rec2] ∧
    delivered [rec1, rec2] [[], [recLive]] []
      ≠ [rec1, rec2] ++ (([[], [recLive]] : List (List LogLine)).flatten ++ []) := by
  decide

/-- C4 (amended): for every cooperative schedule, the sequence delivered to
a subscriber is an order-preserving interleaving of the replay snapshot and
the records appended after the subscription instant: the replay is a
subsequence in order, the live records are a subsequence in order, nothing
is duplicated or lost (the whole is a permutation of replay ++ live), and
the delivered sequence equals replay ++ live exactly when no append
interleaves with the replay loop. -/
theorem C4_amended (replay : List LogLine) (gaps : List (List LogLine))
    (afterL : List LogLine) :
    List.Sublist replay (delivered replay gaps afterL) ∧
    List.Sublist (gaps.flatten ++ afterL) (delivered replay gaps afterL) ∧
    List.Perm (delivered replay gaps afterL) (replay ++ (gaps.flatten ++ afterL)) ∧
    ((∀ g ∈ gaps, g = []) → delivered replay gaps afterL = replay ++ afterL) := by
  refine ⟨?_, ?_, ?_, ?_⟩
  · exact (shuffle_replay_sublist_left gaps replay).trans
      (List.sublist_append_left _ afterL)
  · exact (shuffle_replay_sublist_right gaps replay).append (List.Sublist.refl afterL)
  · have := List.Perm.append_right afterL (shuffle_replay_perm gaps replay)
    unfold delivered
    rw [← List.append_assoc]
    exact this
  · intro hg
    unfold delivered
    rw [shuffle_replay_all_nil gaps replay hg]

/-- C4 (witness): the quiescent-schedule conclusion of the amended claim at
a concrete input: with no append interleaving the replay loop, delivery is
exactly replay ++ live. -/
theorem C4_witness :
    delivered [rec1, rec2] [[], []] [recLive] = [rec1, rec2] ++ [recLive] :=
  (C4_amended [rec1, rec2] [[], []] [recLive]).2.2.2 (by decide)

/-- C5 (counterexample): `stop` does not terminate live subscriber
iterators.  On a supervisor with one open subscriber, after `stop` the
subscriber is still registered and no stream has been closed, so its
iterator has not observed end-of-stream — refuting "upon supervisor stop
the iterator terminates cleanly". -/
theorem C5_counterexample :
    (stop 7 false wSub).subscriber_streams = [exSub] ∧
    (stop 7 false wSub).closed_streams = [] := by decide

/-- C5 (amended): the live iterator terminates cleanly upon removal of the
subscriber — `unsubscribe_tail_stream` closes the stream and drops it from
the subscriber dict — while `stop` touches neither the subscriber set nor
any stream, so stopping the supervisor does not terminate the iterator. -/
theorem C5_amended (s : ProcessWrapper) (sid : Nat) :
    (unsubscribe_tail_stream sid s).closed_streams = s.closed_streams ++ [sid] ∧
    (∀ sub ∈ (unsubscribe_tail_stream sid s).subscriber_streams, sub.sid ≠ sid) ∧
    (∀ (code : Int) (kill : Bool),
      (stop code kill s).subscriber_streams = s.subscriber_streams ∧
      (stop code kill s).closed_streams = s.closed_streams) := by
  refine ⟨rfl, ?_, ?_⟩
  · intro sub hmem
    have hp := (List.mem_filter.mp hmem).2
    simpa using hp
  · intro code kill
    unfold stop
    cases hp : s.proc with
    | none => exact ⟨rfl, rfl⟩
    | some c => by_cases hc : c.returncode = none <;> simp [hc]

/-- C5 (witness): the amended statement instantiated at a supervisor with
one open subscriber, unsubscribing stream 0. -/
theorem C5_witness :
    (unsubscribe_tail_stream 0 wSub).closed_streams = wSub.closed_streams ++ [0] ∧
    (∀ sub ∈ (unsubscribe_tail_stream 0 wSub).subscriber_streams, sub.sid ≠ 0) ∧
    (∀ (code : Int) (kill : Bool),
      (stop code kill wSub).subscriber_streams = wSub.subscriber_streams ∧
      (stop code kill wSub).closed_streams = wSub.closed_streams) :=
  C5_amended wSub 0

/-- C6 (confirmed): appending one piece always leaves the new record in the
ring buffer; broadcasting tries `send_nowait` on every subscriber
independently — a subscriber whose enqueue fails (closed stream or full
queue) is left untouched in the dict and its removal is scheduled, while
every subscriber whose enqueue succeeds has the record appended to its
queue; the loop is a total function of the state, never waiting on any
subscriber. -/
theorem C6_theorem (s : ProcessWrapper) (kind : LogKind) (now : Nat) (piece : String) :
    (⟨kind, now, piece⟩ : LogLine) ∈ (append_one kind now piece s).log_buffer ∧
    (append_one kind now piece s).subscriber_streams
      = s.subscriber_streams.map
          (fun sub => (send_nowait sub ⟨kind, now, piece⟩).getD sub) ∧
    (append_one kind now piece s).pending_unsubs
      = s.pending_unsubs ++ (s.subscriber_streams.filter
          (fun sub => (send_nowait sub ⟨kind, now, piece⟩).isNone)).map Subscriber.sid := by
  refine ⟨?_, ?_, ?_⟩
  · exact mem_deque_append_self s.log_buffer _
  · exact broadcast_fst s.subscriber_streams _
  · show s.pending_unsubs ++ (broadcast s.subscriber_streams _).2 = _
    rw [broadcast_snd]

/-- C7 (counterexample): a supervisor whose child has exited (returncode 0)
is not currently running, yet `POST /procs/{name}/start` refuses it with
400 "Process has already started" instead of spawning — the guard tests
`pid is not None`, which stays true after exit. -/
theorem C7_counterexample :
    wExited.returncode = some 0 ∧
    (start_process regExited pName (.ok freshChild)).2
      = .error (.conflict detailAlreadyStarted) := by decide

/-- C7 (amended): the start endpoint fails with 400 "already started" if
and only if `pid` is defined, i.e. a child has ever been spawned in this
supervisor (running or already exited); only when no child was ever spawned
does it spawn from `command` and start the two drain workers. -/
theorem C7_amended (reg : Registry) (nm : String) (p : ProcessWrapper)
    (child : ProcInfo) (hl : lookup_proc reg nm = some p) :
    ((start_process reg nm (.ok child)).2 = .error (.conflict detailAlreadyStarted)
      ↔ p.pid ≠ none) ∧
    (p.pid = none →
      start_process reg nm (.ok child)
        = (set_proc reg nm { p with proc := some child, tasks := p.tasks + 2 },
           .ok { p with proc := some child, tasks := p.tasks + 2 })) := by
  rw [start_process_some hl]
  by_cases hp : p.pid = none
  · constructor
    · rw [if_neg (by simp [hp])]
      simp [start, hp]
    · intro _
      rw [if_neg (by simp [hp])]
      simp [start]
  · constructor
    · simp [hp]
    · intro hc
      exact absurd hc hp

/-- C7 (witness): the amended statement's spawn branch instantiated at a
never-started registered supervisor. -/
theorem C7_witness :
    start_process regFresh pName (.ok freshChild)
      = (set_proc regFresh pName
           { exWrapper with proc := some freshChild, tasks := exWrapper.tasks + 2 },
         .ok { exWrapper with proc := some freshChild, tasks := exWrapper.tasks + 2 }) :=
  (C7_amended regFresh pName exWrapper freshChild (by decide)).2 (by decide)

/-- C8 (counterexample): `POST /procs` with start=true whose spawn fails:
the exception propagates (server error) but the registry is NOT as it was
before the call — the freshly created supervisor was inserted before the
spawn attempt and is not rolled back. -/
theorem C8_counterexample :
    create_process ([] : Registry) pName cmdEcho true (.error ())
        = ([(pName, exWrapper)], .error .serverError) ∧
    ([(pName, exWrapper)] : Registry) ≠ ([] : Registry) := by decide

/-- C8 (amended): when spawning fails during create-with-start, the
exception propagates to the caller and the supervisor itself remains Absent
(no child handle, no drain workers), but the registry retains the newly
inserted entry — the observable registry state differs from before the
call. -/
theorem C8_amended (reg : Registry) (nm : String) (cmd : List String)
    (hl : lookup_proc reg nm = none) :
    create_process reg nm cmd true (.error ())
        = (reg ++ [(nm, mk_wrapper nm cmd)], .error .serverError) ∧
    (mk_wrapper nm cmd).proc = none ∧
    (mk_wrapper nm cmd).tasks = 0 ∧
    reg ++ [(nm, mk_wrapper nm cmd)] ≠ reg := by
  refine ⟨?_, rfl, rfl, ?_⟩
  · unfold create_process
    rw [hl]
    simp [start]
  · intro hc
    have := congrArg List.length hc
    simp at this

/-- C8 (witness): the amended statement instantiated at the empty
registry. -/
theorem C8_witness :
    create_process ([] : Registry) pName cmdEcho true (.error ())
      = (([] : Registry) ++ [(pName, mk_wrapper pName cmdEcho)], .error .serverError) :=
  (C8_amended [] pName cmdEcho rfl).1

/-- C9 (confirmed): for every registered process, deletion fails with 400
"Process is still running" exactly while `returncode` is undefined (child
running or never started), leaving the registry unchanged; once
`returncode` is defined, deletion succeeds (204), the name no longer
resolves, and every other entry is untouched. -/
theorem C9_theorem (reg : Registry) (nm : String) (p : ProcessWrapper)
    (hl : lookup_proc reg nm = some p) :
    (p.returncode = none →
      delete_process reg nm = (reg, .error (.conflict detailStillRunning))) ∧
    (p.returncode ≠ none →
      (delete_process reg nm).2 = .ok () ∧
      lookup_proc (delete_process reg nm).1 nm = none ∧
      ∀ m, m ≠ nm → lookup_proc (delete_process reg nm).1 m = lookup_proc reg m) := by
  constructor
  · intro h
    rw [delete_process_some hl]
    simp [h]
  · intro h
    rw [delete_process_some hl, if_neg h]
    exact ⟨rfl, lookup_erase_self reg nm, fun m hm => lookup_erase_ne reg nm m hm⟩

/-- C9 (witness): the delete-after-exit branch instantiated at a registry
holding one exited supervisor. -/
theorem C9_witness :
    (delete_process regExited pName).2 = .ok () ∧
    lookup_proc (delete_process regExited pName).1 pName = none := by
  have h := (C9_theorem regExited pName wExited (by decide)).2 (by decide)
  exact ⟨h.1, h.2.1⟩

/-- C10 (confirmed): `stop` and `restart` (any kill/clear_logs flags, any
spawn outcome) leave the subscriber set untouched: the registered
subscriber streams — queues included — are exactly those from before, and
no stream is closed; a subscriber that is live across a restart therefore
keeps its queue and keeps receiving subsequent broadcasts. -/
theorem C10_theorem (s : ProcessWrapper) (code : Int) (kill : Bool)
    (exitC : Int) (spawn : Except Unit ProcInfo) (ke cl : Bool) :
    (stop code kill s).subscriber_streams = s.subscriber_streams ∧
    (stop code kill s).closed_streams = s.closed_streams ∧
    (restart exitC spawn ke cl s).1.subscriber_streams = s.subscriber_streams ∧
    (restart exitC spawn ke cl s).1.closed_streams = s.closed_streams := by
  have hstop : ∀ (c : Int) (k : Bool),
      (stop c k s).subscriber_streams = s.subscriber_streams ∧
      (stop c k s).closed_streams = s.closed_streams := by
    intro c k
    unfold stop
    cases hp : s.proc with
    | none => exact ⟨rfl, rfl⟩
    | some pc => by_cases hc : pc.returncode = none <;> simp [hc]
  refine ⟨(hstop code kill).1, (hstop code kill).2, ?_, ?_⟩ <;>
    · unfold restart start
      cases spawn <;> by_cases hcl : cl <;>
        simp [hcl, (hstop exitC ke).1, (hstop exitC ke).2]

end PW
